import Mathlib

/-!
Verification of the collaboration engine of `joint_doc_editor`.

Shallow embedding of `src/app/domains/collaboration/entities.py` and
`src/app/domains/collaboration/services.py`.  Python strings are modelled
as `List Char` (Unicode code points), Python `int` as `Int`.  The
`uuid`/`timestamp` fields of `Operation` are omitted: they are fresh
random identifiers and wall-clock data that no transformation, history or
text computation reads.  Database persistence and WebSocket broadcasting
are external I/O; where a claim depends on a fallible persistence call it
is modelled by an explicit success oracle.
-/

namespace JointDocEditor

/-- `OperationType` enum from entities.py. -/
inductive OperationType where
  | INSERT
  | DELETE
  | RETAIN
deriving DecidableEq, Repr

/-- `Operation` from entities.py (the fields read by `apply_to`,
`transform` and the history; `uuid` and `timestamp` omitted, see header). -/
structure Operation where
  operation_type : OperationType
  position : Int
  content : List Char
  length : Int
  author_id : Option (List Char)
  version : Int
deriving DecidableEq, Repr

/-- Python slice index normalisation for a step-1 slice bound on a string of
`len` code points: a negative index counts from the end, and both directions
clamp into `[0, len]`, exactly as `text[:i]` / `text[i:]` behave. -/
def pySliceIndex (len : Nat) (i : Int) : Nat :=
  if i < 0 then ((len : Int) + i).toNat else min i.toNat len

/-- `Operation.apply_to` (entities.py lines 37-45):
INSERT is `text[:position] + content + text[position:]`,
DELETE is `text[:position] + text[position+length:]`,
RETAIN returns the text unchanged. -/
def Operation.apply_to (self : Operation) (text : List Char) : List Char :=
  match self.operation_type with
  | .INSERT =>
      text.take (pySliceIndex text.length self.position) ++ self.content ++
        text.drop (pySliceIndex text.length self.position)
  | .DELETE =>
      text.take (pySliceIndex text.length self.position) ++
        text.drop (pySliceIndex text.length (self.position + self.length))
  | .RETAIN => text

/-- `Operation.transform` (entities.py lines 47-159), translated branch by
branch.  Note that the INSERT result constructors pass no `length` (so it
defaults to 0) and the DELETE result constructors pass no `content` (so it
defaults to the empty string); the final fall-through copies both. -/
def Operation.transform (self other : Operation) : Operation :=
  match self.operation_type, other.operation_type with
  | .INSERT, .INSERT =>
      if self.position ≤ other.position then
        ⟨self.operation_type, self.position, self.content, 0,
          self.author_id, self.version⟩
      else
        ⟨self.operation_type, self.position + (other.content.length : Int),
          self.content, 0, self.author_id, self.version⟩
  | .INSERT, .DELETE =>
      if self.position ≤ other.position then
        ⟨self.operation_type, self.position, self.content, 0,
          self.author_id, self.version⟩
      else if self.position > other.position + other.length then
        ⟨self.operation_type, self.position - other.length, self.content, 0,
          self.author_id, self.version⟩
      else
        ⟨self.operation_type, other.position, self.content, 0,
          self.author_id, self.version⟩
  | .DELETE, .INSERT =>
      if self.position < other.position then
        ⟨self.operation_type, self.position, [], self.length,
          self.author_id, self.version⟩
      else
        ⟨self.operation_type, self.position + (other.content.length : Int),
          [], self.length, self.author_id, self.version⟩
  | .DELETE, .DELETE =>
      if self.position + self.length ≤ other.position then
        ⟨self.operation_type, self.position, [], self.length,
          self.author_id, self.version⟩
      else if self.position ≥ other.position + other.length then
        ⟨self.operation_type, self.position - other.length, [], self.length,
          self.author_id, self.version⟩
      else
        let start := max self.position other.position
        let stop := min (self.position + self.length)
          (other.position + other.length)
        let overlap := stop - start
        if self.position < other.position then
          ⟨self.operation_type, self.position, [],
            max 0 (self.length - overlap), self.author_id, self.version⟩
        else
          ⟨self.operation_type, other.position, [],
            max 0 (self.length - overlap), self.author_id, self.version⟩
  | _, _ =>
      ⟨self.operation_type, self.position, self.content, self.length,
        self.author_id, self.version⟩

/-- `OperationHistory` from entities.py (the `document_id`, the ordered
operation list and `current_version`). -/
structure OperationHistory where
  document_id : List Char
  operations : List Operation
  current_version : Int
deriving DecidableEq, Repr

/-- `OperationHistory.__init__`: empty log, `current_version = 0`. -/
def OperationHistory.fresh (document_id : List Char) : OperationHistory :=
  ⟨document_id, [], 0⟩

/-- `OperationHistory.add_operation` (entities.py lines 267-271): stamps the
operation with `current_version + 1`, appends it, bumps `current_version`. -/
def OperationHistory.add_operation (self : OperationHistory)
    (operation : Operation) : OperationHistory :=
  { self with
    operations :=
      self.operations ++ [{ operation with version := self.current_version + 1 }],
    current_version := self.current_version + 1 }

/-- `OperationHistory.get_operations_since`: the operations whose version
exceeds the given one. -/
def OperationHistory.get_operations_since (self : OperationHistory)
    (version : Int) : List Operation :=
  self.operations.filter (fun op => version < op.version)

/-- `OperationHistory.transform_operation` (entities.py lines 281-289):
left-fold of `transform` over the stored operations whose version exceeds
the submitted operation's version. -/
def OperationHistory.transform_operation (self : OperationHistory)
    (new_operation : Operation) : Operation :=
  self.operations.foldl
    (fun transformed existing_op =>
      if new_operation.version < existing_op.version then
        transformed.transform existing_op
      else transformed)
    new_operation

/-- `OperationHistory.get_current_text`: replay every stored operation, in
order, onto the initial text. -/
def OperationHistory.get_current_text (self : OperationHistory)
    (initial_text : List Char) : List Char :=
  self.operations.foldl (fun current operation => operation.apply_to current)
    initial_text

/-- `OperationCreate` schema (schemas.py lines 9-40): the payload a client
submits.  It carries `type`, `position`, `content`, `length`, `author_id`
and `version` — and, notably, no document id. -/
structure OperationCreate where
  type : OperationType
  position : Int
  content : List Char
  length : Int
  author_id : List Char
  version : Int
deriving DecidableEq, Repr

/-- The `Operation(...)` construction performed by the service on a
submitted payload (services.py lines 89-96 and 201-208). -/
def OperationCreate.toOperation (d : OperationCreate) : Operation :=
  ⟨d.type, d.position, d.content, d.length, some d.author_id, d.version⟩

/-- The part of `CollaborationService` state the operation path reads and
writes: the in-memory `_operation_histories` map, keyed by a UUID-valued
key modelled as `List Char`.  Repositories and WebSocket connections are
external I/O and carry no history state. -/
structure CollaborationService where
  operation_histories : List Char → Option OperationHistory

/-- `CollaborationService.apply_operation` (services.py lines 77-110):
note line 79, `document_id = operation_data.author_id`.  The history under
that key is fetched (or freshly created when absent; the database load of
line 84 onto a fresh history is external I/O), the submitted operation is
transformed against it, appended, and the mutated operation (stamped with
the new version by `add_operation`) is returned. -/
def CollaborationService.apply_operation (self : CollaborationService)
    (operation_data : OperationCreate) : CollaborationService × Operation :=
  let document_id := operation_data.author_id
  let history :=
    match self.operation_histories document_id with
    | some h => h
    | none => OperationHistory.fresh document_id
  let operation := operation_data.toOperation
  let transformed_operation := history.transform_operation operation
  let history' := history.add_operation transformed_operation
  (⟨fun k => if k = document_id then some history' else
      self.operation_histories k⟩,
   { transformed_operation with version := history.current_version + 1 })

/-- Result record of `apply_operation_batch` (services.py lines 236-242):
the accepted operations, the failed ones tagged with their batch index,
and the final version.  The final history is carried along as well so the
net effect on the document can be stated. -/
structure BatchResult where
  processed_operations : List Operation
  failed_operations : List (Nat × OperationCreate)
  final_version : Int
  history : OperationHistory
deriving DecidableEq, Repr

/-- The `for i, op_data in enumerate(batch.operations)` loop of
`apply_operation_batch` (services.py lines 199-230).  Each element is
transformed against the already-accepted earlier members of the batch,
then against the history, then appended to the history via
`add_operation`; only then is it persisted via the repository.
`persist_ok i` models whether that external persistence call at batch
index `i` succeeds — the only fallible step in the loop body.  On failure
the `except` branch records the element with its index (the source stores
`op_data.dict()` and the error text; the element and index are what
matter) and the loop continues; the history mutation is not rolled back. -/
def apply_operation_batch_loop (persist_ok : Nat → Bool) :
    Nat → OperationHistory → List Operation → List (Nat × OperationCreate) →
    List OperationCreate → BatchResult
  | _, history, processed, failed, [] =>
      ⟨processed, failed, history.current_version, history⟩
  | i, history, processed, failed, op_data :: rest =>
      let operation :=
        processed.foldl (fun acc prev_op => acc.transform prev_op)
          op_data.toOperation
      let transformed_operation := history.transform_operation operation
      let versioned :=
        { transformed_operation with version := history.current_version + 1 }
      let history' := history.add_operation transformed_operation
      if persist_ok i then
        apply_operation_batch_loop persist_ok (i + 1) history'
          (processed ++ [versioned]) failed rest
      else
        apply_operation_batch_loop persist_ok (i + 1) history' processed
          (failed ++ [(i, op_data)]) rest

/-- `CollaborationService.apply_operation_batch` (services.py lines
185-242) on the history of the batch's document, with the persistence
success oracle made explicit. -/
def CollaborationService.apply_operation_batch (persist_ok : Nat → Bool)
    (history : OperationHistory) (operations : List OperationCreate) :
    BatchResult :=
  apply_operation_batch_loop persist_ok 0 history [] [] operations

/-- A sequence of `add_operation` calls, as performed by the accept path. -/
def OperationHistory.addOperations (h : OperationHistory)
    (ops : List Operation) : OperationHistory :=
  ops.foldl OperationHistory.add_operation h

/-- C1.  The convergence property TP1 fails on the code: for the two valid
same-base INSERT operations `a = INSERT(0, "x")` by author `A` and
`b = INSERT(0, "y")` by author `B` on the empty base text, applying
`a.transform(b)` after `b` yields `"xy"` while applying `b.transform(a)`
after `a` yields `"yx"` — the two orders do not converge, because
`transform` breaks the position tie in favour of `self` on both sides. -/
theorem insert_insert_same_position_diverges :
    (Operation.transform ⟨.INSERT, 0, ['x'], 0, some ['A'], 0⟩
        ⟨.INSERT, 0, ['y'], 0, some ['B'], 0⟩).apply_to
      ((⟨.INSERT, 0, ['y'], 0, some ['B'], 0⟩ : Operation).apply_to []) =
        ['x', 'y'] ∧
    (Operation.transform ⟨.INSERT, 0, ['y'], 0, some ['B'], 0⟩
        ⟨.INSERT, 0, ['x'], 0, some ['A'], 0⟩).apply_to
      ((⟨.INSERT, 0, ['x'], 0, some ['A'], 0⟩ : Operation).apply_to []) =
        ['y', 'x'] ∧
    (['x', 'y'] : List Char) ≠ ['y', 'x'] := by
  decide

/-- C2.  Scenario S1 on the code: authors `"A" < "B"` lexicographically,
A's `INSERT(0, "Hello")` is accepted first as v1; transforming B's
`INSERT(0, "World")` against the history leaves B's position at 0 (no
author comparison occurs anywhere in `transform`), and the final text is
`"WorldHello"` — not position 5 and `"HelloWorld"` as the claim states. -/
theorem s1_tie_break_missing :
    ((OperationHistory.fresh "doc".toList |>.add_operation
        ⟨.INSERT, 0, "Hello".toList, 0, some "A".toList, 0⟩).transform_operation
      ⟨.INSERT, 0, "World".toList, 0, some "B".toList, 0⟩).position = 0 ∧
    ((OperationHistory.fresh "doc".toList |>.add_operation
          ⟨.INSERT, 0, "Hello".toList, 0, some "A".toList, 0⟩).add_operation
        ((OperationHistory.fresh "doc".toList |>.add_operation
            ⟨.INSERT, 0, "Hello".toList, 0, some "A".toList, 0⟩).transform_operation
          ⟨.INSERT, 0, "World".toList, 0, some "B".toList, 0⟩)).get_current_text []
      = "WorldHello".toList ∧
    "WorldHello".toList ≠ "HelloWorld".toList := by
  decide

/-- C3.  Delete-over-insert does not preserve the delete's intent: on base
`S = "abcd"` with `a = DELETE(1, 2)` and `b = INSERT(2, "X")` (so
`a.position < b.position < a.position + a.length`), the code leaves `a`
unchanged (`a.position < b.position` branch), and applying it after `b`
yields `"acd"` — part of the inserted content is destroyed — instead of
the claimed `S[0..1) ++ "X" ++ S[3..) = "aXd"`. -/
theorem delete_split_by_insert_loses_content :
    (Operation.transform ⟨.DELETE, 1, [], 2, some "A".toList, 0⟩
        ⟨.INSERT, 2, "X".toList, 0, some "B".toList, 0⟩).apply_to
      ((⟨.INSERT, 2, "X".toList, 0, some "B".toList, 0⟩ : Operation).apply_to
        "abcd".toList) = "acd".toList ∧
    "acd".toList ≠
      ("abcd".toList.take 1 ++ "X".toList ++ "abcd".toList.drop 3) := by
  decide

/-- C4, counterexample.  For the overlapping deletes `a = DELETE(0, 1)` and
`b = DELETE(0, 2)` the transformed operation has length 0 yet its type is
still DELETE, not RETAIN: `transform` never changes the operation type. -/
theorem overlap_delete_zero_length_not_retain :
    ¬((Operation.transform ⟨.DELETE, 0, [], 1, some "A".toList, 0⟩
        ⟨.DELETE, 0, [], 2, some "B".toList, 0⟩).length = 0 →
      (Operation.transform ⟨.DELETE, 0, [], 1, some "A".toList, 0⟩
        ⟨.DELETE, 0, [], 2, some "B".toList, 0⟩).operation_type =
          OperationType.RETAIN) := by
  decide

/-- C7.  `apply_operation` keys the history by the wrong field: submitting
an operation authored by `"alice"` to a service whose only history is the
one of document `"doc-1"` leaves `"doc-1"`'s history untouched and
appends the operation to a history stored under the key `"alice"` —
services.py line 79 sets `document_id = operation_data.author_id`, and
the `OperationCreate` schema carries no document id at all. -/
theorem apply_operation_keys_history_by_author :
    ((CollaborationService.apply_operation
        ⟨fun k => if k = "doc-1".toList then
            some (OperationHistory.fresh "doc-1".toList) else none⟩
        ⟨.INSERT, 0, "hi".toList, 0, "alice".toList, 0⟩).1.operation_histories
      "doc-1".toList).map (fun h => h.operations.length) = some 0 ∧
    ((CollaborationService.apply_operation
        ⟨fun k => if k = "doc-1".toList then
            some (OperationHistory.fresh "doc-1".toList) else none⟩
        ⟨.INSERT, 0, "hi".toList, 0, "alice".toList, 0⟩).1.operation_histories
      "alice".toList).map (fun h => h.operations.length) = some 1 := by
  decide

/-- C8.  Scenario S3: submitting the batch `[INSERT pos=0 "ab",
INSERT pos=2 "cd"]` at base version 0 to an empty document accepts both
elements (nothing fails), assigns them versions 1 and 2, stores as second
operation the second element transformed against the accepted first
element `a1` (and then against the intervening history) before appending,
reports final version 2, and replaying the resulting history onto the
empty text yields exactly `"abcd"`. -/
theorem s3_batch_accepts_both :
    (let op1 : OperationCreate := ⟨.INSERT, 0, "ab".toList, 0, "A".toList, 0⟩
     let op2 : OperationCreate := ⟨.INSERT, 2, "cd".toList, 0, "A".toList, 0⟩
     let a1 : Operation := { op1.toOperation with version := 1 }
     let h1 := (OperationHistory.fresh "doc".toList).add_operation
       op1.toOperation
     let r := CollaborationService.apply_operation_batch (fun _ => true)
       (OperationHistory.fresh "doc".toList) [op1, op2]
     r.processed_operations =
        [a1, { h1.transform_operation (op2.toOperation.transform a1) with
                 version := 2 }] ∧
     r.failed_operations = [] ∧
     r.final_version = 2 ∧
     r.history.get_current_text [] = "abcd".toList) := by
  decide

/-- C5.  The INSERT/DELETE transformation table, exactly as the code has
it: for an INSERT `a` (whose `length` is 0 per the data model) and a
DELETE `b` (with non-negative `length` per the data model),
`a.transform(b)` is `a` unchanged when `a.position ≤ b.position`, is `a`
moved left by `b.length` when `a.position > b.position + b.length`, and
otherwise (`a` inside the deleted range) has its position set to
`b.position`; and in scenario S2 (text `"abcdef"`, A `DELETE(1, 3)`
accepted first, B `INSERT(2, "X")` transformed against the history) B's
transformed position is 1 and the final text is `"aXef"`. -/
theorem insert_delete_transform_table (a b : Operation)
    (ha : a.operation_type = OperationType.INSERT)
    (hb : b.operation_type = OperationType.DELETE)
    (halen : a.length = 0) (hblen : 0 ≤ b.length) :
    (a.position ≤ b.position → a.transform b = a) ∧
    (a.position > b.position + b.length →
      a.transform b = { a with position := a.position - b.length }) ∧
    (b.position < a.position → a.position ≤ b.position + b.length →
      a.transform b = { a with position := b.position }) ∧
    (((OperationHistory.fresh "doc".toList |>.add_operation
          ⟨.DELETE, 1, [], 3, some "A".toList, 0⟩).transform_operation
        ⟨.INSERT, 2, "X".toList, 0, some "B".toList, 0⟩).position = 1 ∧
      ((OperationHistory.fresh "doc".toList |>.add_operation
            ⟨.DELETE, 1, [], 3, some "A".toList, 0⟩).add_operation
          ((OperationHistory.fresh "doc".toList |>.add_operation
              ⟨.DELETE, 1, [], 3, some "A".toList, 0⟩).transform_operation
            ⟨.INSERT, 2, "X".toList, 0, some "B".toList, 0⟩)).get_current_text
        "abcdef".toList = "aXef".toList) := by
  obtain ⟨ta, pa, ca, la, aua, va⟩ := a
  obtain ⟨tb, pb, cb, lb, aub, vb⟩ := b
  simp only at ha hb halen hblen
  subst ha hb halen
  dsimp only
  refine ⟨?_, ?_, ?_, by decide⟩
  · intro h
    simp only [Operation.transform]
    rw [if_pos h]
  · intro h
    simp only [Operation.transform]
    rw [if_neg (by omega), if_pos h]
  · intro h1 h2
    simp only [Operation.transform]
    rw [if_neg (by omega), if_neg (by omega)]

/-- C4, amended.  For two DELETE operations `a`, `b` whose ranges overlap
(neither `a.position + a.length ≤ b.position` nor
`a.position ≥ b.position + b.length`), `a.transform(b)` has position
`min(a.position, b.position)` and length `max(0, a.length − overlap)`
with `overlap = min(ae, be) − max(a.position, b.position)` — and its type
is still DELETE, even when the resulting length is 0 (the zero-length
DELETE is a textual no-op; the code never converts it to RETAIN). -/
theorem delete_delete_overlap_transform (a b : Operation)
    (ha : a.operation_type = OperationType.DELETE)
    (hb : b.operation_type = OperationType.DELETE)
    (h1 : ¬(a.position + a.length ≤ b.position))
    (h2 : ¬(a.position ≥ b.position + b.length)) :
    (a.transform b).position = min a.position b.position ∧
    (a.transform b).length =
      max 0 (a.length -
        (min (a.position + a.length) (b.position + b.length) -
          max a.position b.position)) ∧
    (a.transform b).operation_type = OperationType.DELETE := by
  obtain ⟨ta, pa, ca, la, aua, va⟩ := a
  obtain ⟨tb, pb, cb, lb, aub, vb⟩ := b
  simp only at ha hb h1 h2
  subst ha hb
  dsimp only
  simp only [Operation.transform]
  rw [if_neg h1, if_neg h2]
  by_cases hlt : pa < pb
  · rw [if_pos hlt]
    dsimp only
    exact ⟨by omega, by omega, rfl⟩
  · rw [if_neg hlt]
    dsimp only
    exact ⟨by omega, by omega, rfl⟩

/-- C10.  `apply_to` never fails for an operation with non-negative
position and length: it is a total function built from clamping slices
(the embedding of Python slicing, which raises no error for any int
operands), an INSERT whose position is at or past the end of the text
appends its content at the end, and a DELETE whose range reaches past the
end removes exactly the characters from its position to the end.  No
validity check of the position against the text occurs. -/
theorem apply_to_total_clamps (op : Operation) (text : List Char)
    (hp : 0 ≤ op.position) (hl : 0 ≤ op.length) :
    (op.operation_type = OperationType.INSERT →
      (text.length : Int) ≤ op.position →
      op.apply_to text = text ++ op.content) ∧
    (op.operation_type = OperationType.DELETE →
      (text.length : Int) ≤ op.position + op.length →
      op.apply_to text = text.take op.position.toNat) := by
  obtain ⟨t, p, c, l, au, v⟩ := op
  simp only at hp hl
  dsimp only
  constructor
  · intro ht hlen
    subst ht
    simp only [Operation.apply_to, pySliceIndex]
    have hnp : ¬(p < 0) := by omega
    rw [if_neg hnp]
    have h1 : min p.toNat text.length = text.length := by omega
    rw [h1, List.take_length, List.drop_length, List.append_nil]
  · intro ht hlen
    subst ht
    simp only [Operation.apply_to, pySliceIndex]
    have hnp : ¬(p < 0) := by omega
    have hnpl : ¬(p + l < 0) := by omega
    rw [if_neg hnp, if_neg hnpl]
    have h2 : min (p + l).toNat text.length = text.length := by omega
    rw [h2, List.drop_length, List.append_nil]
    rcases Nat.le_total p.toNat text.length with h | h
    · rw [min_eq_left h]
    · rw [min_eq_right h, List.take_length, List.take_of_length_le h]

/-- Version bookkeeping of `add_operation`, propagated through any run of
`addOperations`: if the history's `current_version` equals its length and
the stored operation at index `i` carries version `i + 1`, both facts
survive any sequence of accepted operations. -/
lemma addOperations_versions (ops : List Operation) (h : OperationHistory)
    (hcv : h.current_version = (h.operations.length : Int))
    (hver : ∀ i (hi : i < h.operations.length),
      (h.operations.get ⟨i, hi⟩).version = (i : Int) + 1) :
    (h.addOperations ops).current_version =
        ((h.addOperations ops).operations.length : Int) ∧
    (h.addOperations ops).operations.length =
        h.operations.length + ops.length ∧
    ∀ i (hi : i < (h.addOperations ops).operations.length),
      ((h.addOperations ops).operations.get ⟨i, hi⟩).version = (i : Int) + 1 := by
  induction ops generalizing h with
  | nil =>
    exact ⟨hcv, rfl, hver⟩
  | cons op rest ih =>
    have step : h.addOperations (op :: rest) =
        (h.add_operation op).addOperations rest := rfl
    have hcv' : (h.add_operation op).current_version =
        ((h.add_operation op).operations.length : Int) := by
      simp [OperationHistory.add_operation, hcv]
    have hver' : ∀ i (hi : i < (h.add_operation op).operations.length),
        ((h.add_operation op).operations.get ⟨i, hi⟩).version = (i : Int) + 1 := by
      intro i hi
      simp only [OperationHistory.add_operation, List.get_eq_getElem] at hi ⊢
      simp only [List.length_append, List.length_cons, List.length_nil] at hi
      rcases Nat.lt_or_ge i h.operations.length with hlt | hge
      · rw [List.getElem_append_left hlt]
        simpa [List.get_eq_getElem] using hver i hlt
      · have heq : i = h.operations.length := by omega
        subst heq
        rw [List.getElem_append_right (le_refl _)]
        simp [hcv]
    obtain ⟨c1, c2, c3⟩ := ih (h.add_operation op) hcv' hver'
    rw [step]
    refine ⟨c1, ?_, c3⟩
    rw [c2]
    simp [OperationHistory.add_operation]
    omega

/-- C6.  Monotonic versions: starting from a fresh history, after any
sequence of `n` `add_operation` calls — whatever version fields the
submitted operations carry, since `add_operation` overwrites them —
`current_version` equals `n`, the log holds exactly `n` operations, and
the operation stored at index `i` carries version `i + 1`, so the
versions run `1, 2, 3, …` with no gaps and no duplicates. -/
theorem monotonic_versions (d : List Char) (ops : List Operation) :
    ((OperationHistory.fresh d).addOperations ops).current_version =
        (ops.length : Int) ∧
    ((OperationHistory.fresh d).addOperations ops).operations.length =
        ops.length ∧
    ∀ i (hi : i < ((OperationHistory.fresh d).addOperations ops).operations.length),
      (((OperationHistory.fresh d).addOperations ops).operations.get
        ⟨i, hi⟩).version = (i : Int) + 1 := by
  obtain ⟨c1, c2, c3⟩ := addOperations_versions ops (OperationHistory.fresh d)
    (by simp [OperationHistory.fresh]) (by intro i hi; simp [OperationHistory.fresh] at hi)
  have hlen : ((OperationHistory.fresh d).addOperations ops).operations.length =
      ops.length := by
    simpa [OperationHistory.fresh] using c2
  exact ⟨by rw [c1, hlen], hlen, c3⟩

/-- The failure list produced by the batch loop: the starting accumulator
followed by exactly the elements at indices whose persistence call fails,
each tagged with its batch index, in batch order. -/
lemma batchLoop_failed (persist_ok : Nat → Bool) (ops : List OperationCreate) :
    ∀ (i : Nat) (h : OperationHistory) (p : List Operation)
      (f : List (Nat × OperationCreate)),
      (apply_operation_batch_loop persist_ok i h p f ops).failed_operations =
        f ++ (List.enumFrom i ops).filter (fun q => !persist_ok q.1) := by
  induction ops with
  | nil => intro i h p f; simp [apply_operation_batch_loop]
  | cons d rest ih =>
    intro i h p f
    simp only [apply_operation_batch_loop]
    by_cases hok : persist_ok i
    · rw [if_pos hok, ih]
      simp [List.enumFrom_cons, List.filter_cons, hok]
    · rw [if_neg hok, ih]
      simp [List.enumFrom_cons, List.filter_cons, hok]

/-- Every batch element ends up either accepted or reported failed: the
loop never skips the remaining elements. -/
lemma batchLoop_count (persist_ok : Nat → Bool) (ops : List OperationCreate) :
    ∀ (i : Nat) (h : OperationHistory) (p : List Operation)
      (f : List (Nat × OperationCreate)),
      (apply_operation_batch_loop persist_ok i h p f ops).processed_operations.length +
        (apply_operation_batch_loop persist_ok i h p f ops).failed_operations.length =
          p.length + f.length + ops.length := by
  induction ops with
  | nil => intro i h p f; simp [apply_operation_batch_loop]
  | cons d rest ih =>
    intro i h p f
    simp only [apply_operation_batch_loop]
    by_cases hok : persist_ok i
    · rw [if_pos hok, ih]
      simp
      omega
    · rw [if_neg hok, ih]
      simp
      omega

/-- Accepted elements are in the final history, and the loop only ever
appends to the history — nothing is rolled back. -/
lemma batchLoop_mem (persist_ok : Nat → Bool) (ops : List OperationCreate) :
    ∀ (i : Nat) (h : OperationHistory) (p : List Operation)
      (f : List (Nat × OperationCreate)),
      (∀ op ∈ p, op ∈ h.operations) →
      ∀ op ∈ (apply_operation_batch_loop persist_ok i h p f ops).processed_operations,
        op ∈ (apply_operation_batch_loop persist_ok i h p f ops).history.operations := by
  induction ops with
  | nil =>
    intro i h p f hsub
    simpa [apply_operation_batch_loop] using hsub
  | cons d rest ih =>
    intro i h p f hsub
    simp only [apply_operation_batch_loop]
    have hsub' : ∀ op ∈ p,
        op ∈ (h.add_operation (h.transform_operation
          (p.foldl (fun acc prev_op => acc.transform prev_op) d.toOperation))).operations := by
      intro op hop
      simp only [OperationHistory.add_operation, List.mem_append]
      exact Or.inl (hsub op hop)
    by_cases hok : persist_ok i
    · rw [if_pos hok]
      refine ih (i + 1) _ _ f ?_
      intro op hop
      rcases List.mem_append.mp hop with hop | hop
      · exact hsub' op hop
      · simp only [List.mem_singleton] at hop
        subst hop
        simp [OperationHistory.add_operation, OperationHistory.transform_operation]
    · rw [if_neg hok]
      exact ih (i + 1) _ p _ hsub'

/-- C9.  Batch partial failure: `apply_operation_batch` reports exactly
the elements whose (external, fallible) persistence step fails, each
paired with its index in the batch; every element is either accepted or
reported failed (processing continues past a failure); and every accepted
element of the batch is in the final history — a failure rolls nothing
back. -/
theorem batch_partial_failure (persist_ok : Nat → Bool)
    (h0 : OperationHistory) (ops : List OperationCreate) :
    (CollaborationService.apply_operation_batch persist_ok h0 ops).failed_operations =
      ops.enum.filter (fun q => !persist_ok q.1) ∧
    (CollaborationService.apply_operation_batch persist_ok h0 ops).processed_operations.length +
      (CollaborationService.apply_operation_batch persist_ok h0 ops).failed_operations.length =
        ops.length ∧
    ∀ op ∈ (CollaborationService.apply_operation_batch persist_ok h0 ops).processed_operations,
      op ∈ (CollaborationService.apply_operation_batch persist_ok h0 ops).history.operations := by
  refine ⟨?_, ?_, ?_⟩
  · simpa [List.enum] using batchLoop_failed persist_ok ops 0 h0 [] []
  · simpa using batchLoop_count persist_ok ops 0 h0 [] []
  · exact batchLoop_mem persist_ok ops 0 h0 [] [] (by intro op hop; simp at hop)

/-- Witness for the C5 theorem: `INSERT(2, "z")` against `DELETE(1, 3)`
falls inside the deleted range and lands at position 1. -/
theorem insert_delete_transform_table_witness :
    Operation.transform ⟨.INSERT, 2, ['z'], 0, some ['Z'], 0⟩
        ⟨.DELETE, 1, [], 3, none, 0⟩ =
      { (⟨.INSERT, 2, ['z'], 0, some ['Z'], 0⟩ : Operation) with position := 1 } :=
  (insert_delete_transform_table ⟨.INSERT, 2, ['z'], 0, some ['Z'], 0⟩
      ⟨.DELETE, 1, [], 3, none, 0⟩ rfl rfl rfl (by decide)).2.2.1
    (by decide) (by decide)

/-- Witness for the C4 amended theorem: `DELETE(0, 2)` against
`DELETE(1, 2)` keeps position 0, shrinks to length 1, and stays DELETE. -/
theorem delete_delete_overlap_transform_witness :
    (Operation.transform ⟨.DELETE, 0, [], 2, some ['A'], 0⟩
        ⟨.DELETE, 1, [], 2, none, 0⟩).position = min (0 : Int) 1 ∧
    (Operation.transform ⟨.DELETE, 0, [], 2, some ['A'], 0⟩
        ⟨.DELETE, 1, [], 2, none, 0⟩).length =
      max 0 (2 - (min ((0 : Int) + 2) (1 + 2) - max (0 : Int) 1)) ∧
    (Operation.transform ⟨.DELETE, 0, [], 2, some ['A'], 0⟩
        ⟨.DELETE, 1, [], 2, none, 0⟩).operation_type = OperationType.DELETE :=
  delete_delete_overlap_transform ⟨.DELETE, 0, [], 2, some ['A'], 0⟩
    ⟨.DELETE, 1, [], 2, none, 0⟩ rfl rfl (by decide) (by decide)

/-- Witness for the C10 theorem: `INSERT(10, "z")` on `"ab"` appends, and
`DELETE(1, 99)` on `"ab"` truncates to the first character. -/
theorem apply_to_total_clamps_witness :
    Operation.apply_to ⟨.INSERT, 10, ['z'], 0, none, 0⟩ "ab".toList =
        "ab".toList ++ ['z'] ∧
    Operation.apply_to ⟨.DELETE, 1, [], 99, none, 0⟩ "ab".toList =
        "ab".toList.take (Int.toNat 1) :=
  ⟨(apply_to_total_clamps ⟨.INSERT, 10, ['z'], 0, none, 0⟩ "ab".toList
      (by decide) (by decide)).1 rfl (by decide),
   (apply_to_total_clamps ⟨.DELETE, 1, [], 99, none, 0⟩ "ab".toList
      (by decide) (by decide)).2 rfl (by decide)⟩

/-- Witness for the C6 theorem: two submitted operations both carrying the
junk version 7 are stored with versions 1 and 2 and leave
`current_version = 2`. -/
theorem monotonic_versions_witness :
    ((OperationHistory.fresh []).addOperations
        [⟨.INSERT, 0, ['a'], 0, none, 7⟩, ⟨.RETAIN, 0, [], 0, none, 7⟩]).current_version
      = 2 ∧
    (((OperationHistory.fresh []).addOperations
        [⟨.INSERT, 0, ['a'], 0, none, 7⟩, ⟨.RETAIN, 0, [], 0, none, 7⟩]).operations.get
      ⟨1, by decide⟩).version = 2 :=
  ⟨by simpa using
      (monotonic_versions []
        [⟨.INSERT, 0, ['a'], 0, none, 7⟩, ⟨.RETAIN, 0, [], 0, none, 7⟩]).1,
   by
    have h2 := (monotonic_versions []
      [⟨.INSERT, 0, ['a'], 0, none, 7⟩, ⟨.RETAIN, 0, [], 0, none, 7⟩]).2.2 1
      (by decide)
    omega⟩

/-- Witness for the C9 theorem: in a two-element batch whose second
persistence call fails, the accepted first element (stamped version 1) is
in the final history. -/
theorem batch_partial_failure_witness :
    ({ OperationCreate.toOperation ⟨.INSERT, 0, ['a'], 0, ['u'], 0⟩ with
        version := 1 } : Operation) ∈
      (CollaborationService.apply_operation_batch (fun i => i != 1)
        (OperationHistory.fresh [])
        [⟨.INSERT, 0, ['a'], 0, ['u'], 0⟩,
         ⟨.INSERT, 0, ['b'], 0, ['u'], 0⟩]).history.operations :=
  (batch_partial_failure (fun i => i != 1) (OperationHistory.fresh [])
      [⟨.INSERT, 0, ['a'], 0, ['u'], 0⟩,
       ⟨.INSERT, 0, ['b'], 0, ['u'], 0⟩]).2.2 _ (by decide)

end JointDocEditor
